/-
Verification of the task-readiness / plan-progression engine of the
nextstep-ai goal-planning application.

The definitions below are a shallow embedding of the TypeScript sources:
  * `lib/planner.ts`        — flattenPlan, getNextReadyTask, countTotalTasks,
                              countCompleted
  * `models/Plan.ts`        — the Plan / Week / Milestone / Task data model
  * `app/plan/page.tsx`     — progressPercentage
  * `components/ProgressMeter.tsx` — pct
  * `lib/gemini-replan.ts`  — the replan batch-size policy
  * `app/api/plan/complete/route.ts` — toggle-completion

JavaScript `Set<string>` values are modelled as `List String` with membership;
`Set.has` is list membership.  JavaScript numbers that are only ever integer
counts are modelled as `Nat`; `Math.round` on a non-negative quotient is
modelled exactly on rationals (round half up).
-/
import Mathlib

namespace Planner

/-- Task category, the closed enumeration of `models/Plan.ts`. -/
inductive Category where
  | research
  | build
  | practice
  | network
  | apply
deriving DecidableEq, Repr

/-- A single task, per `TaskSchema` in `models/Plan.ts`.  `prereqs` is kept
optional (`Option`) because `flattenPlan` defensively applies `?? []`. -/
structure Task where
  id : String
  text : String
  minutes : Int
  category : Category
  successCriteria : String
  prereqs : Option (List String)
deriving DecidableEq, Repr

/-- A milestone groups tasks, per `MilestoneSchema` in `models/Plan.ts`. -/
structure Milestone where
  id : String
  name : String
  why : String
  tasks : List Task
deriving DecidableEq, Repr

/-- A week, per `WeekSchema` in `models/Plan.ts`. -/
structure Week where
  week : Int
  theme : String
  milestones : List Milestone
deriving DecidableEq, Repr

/-- The full plan, per `PlanSchema` in `models/Plan.ts`. -/
structure Plan where
  title : String
  summary : String
  weeks : List Week
deriving DecidableEq, Repr

/-- The flattened task projection, per `FlatTask` in `lib/planner.ts`. -/
structure FlatTask where
  id : String
  text : String
  minutes : Int
  category : Category
  successCriteria : String
  prereqs : List String
  week : Int
  milestoneName : String
deriving DecidableEq, Repr

/-- The record pushed onto `out` for source task `t` of milestone `m` of
week `w` in `flattenPlan` (`lib/planner.ts`). -/
def mkFlat (w : Week) (m : Milestone) (t : Task) : FlatTask :=
  { id := t.id
    text := t.text
    minutes := t.minutes
    category := t.category
    successCriteria := t.successCriteria
    prereqs := t.prereqs.getD []
    week := w.week
    milestoneName := m.name }

/-- `flattenPlan` from `lib/planner.ts`: three nested loops pushing onto an
accumulator `out`, embedded as nested left folds appending to the
accumulator. -/
def flattenPlan (plan : Plan) : List FlatTask :=
  plan.weeks.foldl
    (fun out w =>
      w.milestones.foldl
        (fun out m =>
          m.tasks.foldl (fun out t => out ++ [mkFlat w m t]) out)
        out)
    []

/-- The `prereqsDone` check of `getNextReadyTask` (`lib/planner.ts`):
`prereqs.every((p) => completedIds.has(p))`. -/
def prereqsDone (completedIds : List String) (task : FlatTask) : Bool :=
  task.prereqs.all (fun p => decide (p ∈ completedIds))

/-- `getNextReadyTask` from `lib/planner.ts`: scan `flat` in order, skip
completed tasks, return the first task all of whose prereqs are completed. -/
def getNextReadyTask (flat : List FlatTask) (completedIds : List String) :
    Option FlatTask :=
  match flat with
  | [] => none
  | task :: rest =>
    if task.id ∈ completedIds then
      getNextReadyTask rest completedIds
    else if prereqsDone completedIds task then
      some task
    else
      getNextReadyTask rest completedIds

/-- `countTotalTasks` from `lib/planner.ts`. -/
def countTotalTasks (flat : List FlatTask) : Nat :=
  flat.length

/-- `countCompleted` from `lib/planner.ts`: a reduce adding 1 per task whose
id is in the completed set. -/
def countCompleted (flat : List FlatTask) (completedIds : List String) : Nat :=
  flat.foldl (fun acc t => acc + (if t.id ∈ completedIds then 1 else 0)) 0

/-- Exact model of JavaScript `Math.round (num / den)` for natural `num`,
`den` with `den > 0`: round half up, i.e. `⌊num/den + 1/2⌋`. -/
def jsRound (num den : Nat) : Nat :=
  (2 * num + den) / (2 * den)

/-- `progressPercentage` from `app/plan/page.tsx` line 229:
`total > 0 ? Math.round((done / total) * 100) : 0`. -/
def progressPercentage (done total : Nat) : Nat :=
  if total > 0 then jsRound (100 * done) total else 0

/-- `pct` from `components/ProgressMeter.tsx`:
`total > 0 ? 0 : Math.round((completed/total)*100)`.  Note the source has the
ternary branches in this inverted order (the rounded quotient sits in the
`total = 0` branch, where in JavaScript it evaluates to `NaN`; here the
division-by-zero branch is modelled by Lean's `/ 0 = 0` convention, which is
irrelevant to the claims, all about the `total > 0` branch). -/
def pct (completed total : Nat) : Nat :=
  if total > 0 then 0 else jsRound (100 * completed) total

/-- The replan batch-size policy of `lib/gemini-replan.ts` line 106:
`Math.max(5, Math.min(30, input.remainingTasks.length + 5))`, the number of
tasks the replan prompt instructs the generation service to produce. -/
def replanTaskCount (remainingCount : Nat) : Nat :=
  max 5 (min 30 (remainingCount + 5))

/-- A proposed replacement task, per `AiTask` in `lib/gemini-replan.ts`. -/
structure AiTask where
  text : String
  minutes : Int
  category : Category
  successCriteria : String
  prereqs : Option (List String)
  week : Option Int
  milestoneName : Option String
deriving DecidableEq, Repr

/-- `ReplanResponse` from `lib/gemini-replan.ts`. -/
structure ReplanResponse where
  tasks : List AiTask
deriving DecidableEq, Repr

/-- The slice of a stored plan document relevant to replanning, per
`models/PlanDoc.ts`: the plan plus its completion set. -/
structure StoredPlanState where
  plan : Plan
  completedTaskIds : List String
deriving DecidableEq, Repr

/-- Modelled from the spec: step §4.4.5 of the replan integration removes
every task of the "replaced" set from its milestone; the `/api/plan/replan`
route that performs the merge is not among the sources (only its caller
`app/plan/page.tsx` and the generator `lib/gemini-replan.ts` are). -/
def removeReplacedTasks (plan : Plan) (replacedIds : List String) : Plan :=
  { plan with
    weeks := plan.weeks.map (fun w =>
      { w with
        milestones := w.milestones.map (fun m =>
          { m with
            tasks := m.tasks.filter (fun t => decide (t.id ∉ replacedIds)) }) }) }

/-- Modelled from the spec: a newly generated task entering the plan; the
route assigning ids to generated tasks is not among the sources, so fresh ids
are derived from the batch index. -/
def aiTaskAsTask (idx : Nat) (t : AiTask) : Task :=
  { id := "replan-" ++ toString idx
    text := t.text
    minutes := t.minutes
    category := t.category
    successCriteria := t.successCriteria
    prereqs := t.prereqs }

/-- Modelled from the spec: §4.4.5 inserts a generated task into the week and
milestone named by its `(week, milestoneName)` pair, creating new containers
when no such week or milestone exists; the merging route is not among the
sources. -/
def insertTask (weeks : List Week) (weekNum : Int) (msName : String)
    (t : Task) : List Week :=
  if weeks.any (fun w => w.week == weekNum) then
    weeks.map (fun w =>
      if w.week == weekNum then
        { w with
          milestones :=
            if w.milestones.any (fun m => m.name == msName) then
              w.milestones.map (fun m =>
                if m.name == msName then { m with tasks := m.tasks ++ [t] }
                else m)
            else
              w.milestones ++ [{ id := msName, name := msName, why := "",
                                 tasks := [t] }] }
      else w)
  else
    weeks ++ [{ week := weekNum, theme := "",
                milestones := [{ id := msName, name := msName, why := "",
                                 tasks := [t] }] }]

/-- Modelled from the spec: the §4.4.5 integration policy of the
`/api/plan/replan` route, which is not among the sources — replaced tasks are
removed, generated tasks are inserted grouped by `(week, milestoneName)`, and
completion-set entries naming removed task ids are pruned. -/
def mergeReplan (state : StoredPlanState) (replacedIds : List String)
    (resp : ReplanResponse) : StoredPlanState :=
  let planRemoved := removeReplacedTasks state.plan replacedIds
  let weeksMerged := resp.tasks.enum.foldl
    (fun ws p =>
      insertTask ws (p.2.week.getD 1) (p.2.milestoneName.getD "Replanned")
        (aiTaskAsTask p.1 p.2))
    planRemoved.weeks
  let planMerged := { planRemoved with weeks := weeksMerged }
  let liveIds := (flattenPlan planMerged).map FlatTask.id
  { plan := planMerged
    completedTaskIds :=
      state.completedTaskIds.filter (fun x => decide (x ∈ liveIds)) }

/-- Modelled from the spec: the whole replan operation of the
`/api/plan/replan` route (not among the sources).  The generation step
(`replanRemainingTasksNested` of `lib/gemini-replan.ts`) either returns a
parsed `ReplanResponse` or throws — a thrown error is `Except.error` — and
only a successful generation reaches the merge. -/
def replanOperation (stored : StoredPlanState) (replacedIds : List String)
    (genResult : Except String ReplanResponse) :
    Except String StoredPlanState :=
  match genResult with
  | Except.error e => Except.error e
  | Except.ok resp => Except.ok (mergeReplan stored replacedIds resp)

/-- Modelled from the spec: the stored document after a replan request — the
store is written only on success; a failed operation leaves the stored
document as it was. -/
def storedAfterReplan (stored : StoredPlanState) (replacedIds : List String)
    (genResult : Except String ReplanResponse) : StoredPlanState :=
  match replanOperation stored replacedIds genResult with
  | Except.error _ => stored
  | Except.ok s => s

/-- The toggle-completion update of `app/api/plan/complete/route.ts`:
`has ? current.filter((x) => x !== taskId) : [...current, taskId]`. -/
def toggleCompleted (current : List String) (taskId : String) : List String :=
  if taskId ∈ current then
    current.filter (fun x => decide (x ≠ taskId))
  else
    current ++ [taskId]

/-! ## Specification-side definitions

These follow the wording of the specification (§4.1, §4.2), to be compared
with the source-derived definitions above. -/

/-- Spec §4.2 readiness, per the spec's words: the task's id is not in the
completed set, and every id in its prereqs is. -/
def specReadyB (completedIds : List String) (t : FlatTask) : Bool :=
  !(decide (t.id ∈ completedIds)) &&
    t.prereqs.all (fun p => decide (p ∈ completedIds))

/-- Spec §4.1 flattening, per the spec's words: weeks in array order, then
milestones in array order within a week, then tasks in array order within a
milestone, each task inlining its week number and milestone name. -/
def flattenSpec (plan : Plan) : List FlatTask :=
  plan.weeks.flatMap (fun w =>
    w.milestones.flatMap (fun m => m.tasks.map (mkFlat w m)))

/-! ## Concrete example tasks (used in counterexamples and witnesses) -/

/-- The spec's concrete scenario for dangling prereqs: task `C` with
`prereqs = ["X"]` where `X` is no task of the plan. -/
def staleTask : FlatTask :=
  { id := "C", text := "do C", minutes := 30, category := Category.apply
    successCriteria := "done", prereqs := ["X"], week := 1
    milestoneName := "Setup" }

/-- A task with a single prereq `"Y"` that exists nowhere. -/
def staleTask2 : FlatTask :=
  { id := "C2", text := "do C2", minutes := 25, category := Category.research
    successCriteria := "done", prereqs := ["Y"], week := 1
    milestoneName := "Setup" }

/-- One half of a two-task mutual-prereq cycle. -/
def cycleTaskA : FlatTask :=
  { id := "A", text := "a", minutes := 30, category := Category.research
    successCriteria := "ok", prereqs := ["B"], week := 1
    milestoneName := "Loop" }

/-- The other half of a two-task mutual-prereq cycle. -/
def cycleTaskB : FlatTask :=
  { id := "B", text := "b", minutes := 30, category := Category.build
    successCriteria := "ok", prereqs := ["A"], week := 1
    milestoneName := "Loop" }

/-- A task whose single prereq `"a"` is completed. -/
def monoTask : FlatTask :=
  { id := "U", text := "u", minutes := 30, category := Category.practice
    successCriteria := "ok", prereqs := ["a"], week := 1
    milestoneName := "Setup" }

/-- An incomplete task without prereqs. -/
def firstTask : FlatTask :=
  { id := "T0", text := "t0", minutes := 30, category := Category.network
    successCriteria := "ok", prereqs := [], week := 1
    milestoneName := "Setup" }

/-! ## Helper lemmas -/

/-- Folding a push-one-element step over a list appends its image. -/
lemma foldl_append_map {α β : Type} (f : α → β) (l : List α) :
    ∀ acc : List β, l.foldl (fun o x => o ++ [f x]) acc = acc ++ l.map f := by
  induction l with
  | nil => intro acc; simp
  | cons x xs ih => intro acc; simp [ih]

/-- Folding an append-a-block step over a list appends the concatenation of
the blocks. -/
lemma foldl_append_flatMap {α β : Type} (f : α → List β) (l : List α) :
    ∀ acc : List β, l.foldl (fun o x => o ++ f x) acc = acc ++ l.flatMap f := by
  induction l with
  | nil => intro acc; simp
  | cons x xs ih => intro acc; simp [ih]

/-- The imperative flattening loop agrees with the specification-side
`flatMap` description. -/
lemma flattenPlan_eq_flattenSpec (p : Plan) : flattenPlan p = flattenSpec p := by
  unfold flattenPlan flattenSpec
  simp only [foldl_append_map, foldl_append_flatMap, List.nil_append]

/-- `countCompleted`'s fold is a `countP` started at an offset. -/
lemma countCompleted_foldl (c : List String) (l : List FlatTask) :
    ∀ n : Nat,
      l.foldl (fun acc t => acc + (if t.id ∈ c then 1 else 0)) n
        = n + l.countP (fun t => decide (t.id ∈ c)) := by
  induction l with
  | nil => intro n; simp
  | cons t ts ih =>
    intro n
    rw [List.foldl_cons, ih, List.countP_cons]
    by_cases h : t.id ∈ c
    · simp [h]
      omega
    · simp [h]

/-- `countCompleted` is the count of flattened tasks whose id is in the
completed set. -/
lemma countCompleted_eq_countP (flat : List FlatTask) (c : List String) :
    countCompleted flat c = flat.countP (fun t => decide (t.id ∈ c)) := by
  unfold countCompleted
  rw [countCompleted_foldl]
  omega

/-- The readiness scan is `find?` with the spec's readiness predicate. -/
lemma getNextReadyTask_eq_find? (flat : List FlatTask) (c : List String) :
    getNextReadyTask flat c = flat.find? (specReadyB c) := by
  induction flat with
  | nil => rfl
  | cons t ts ih =>
    unfold getNextReadyTask
    by_cases h1 : t.id ∈ c
    · rw [if_pos h1, List.find?_cons_of_neg, ih]
      simp [specReadyB, h1]
    · rw [if_neg h1]
      by_cases h2 : prereqsDone c t = true
      · rw [if_pos h2, List.find?_cons_of_pos]
        unfold prereqsDone at h2
        simp [specReadyB, h1, h2]
      · rw [if_neg h2, List.find?_cons_of_neg, ih]
        unfold prereqsDone at h2
        simp [specReadyB, h1, h2]

/-- A task returned by the readiness scan is incomplete and has all prereqs
completed. -/
lemma getNextReadyTask_some (flat : List FlatTask) (c : List String)
    (t : FlatTask) (h : getNextReadyTask flat c = some t) :
    t.id ∉ c ∧ prereqsDone c t = true := by
  rw [getNextReadyTask_eq_find?] at h
  have hp := List.find?_some h
  unfold specReadyB at hp
  unfold prereqsDone
  simp at hp ⊢
  exact hp

/-- Membership after a toggle: an id is in the toggled list iff it was in the
list and differs from the toggled id, or it is the toggled id and was
absent. -/
lemma mem_toggleCompleted (c : List String) (tid x : String) :
    x ∈ toggleCompleted c tid ↔ (x ∈ c ∧ x ≠ tid) ∨ (x = tid ∧ tid ∉ c) := by
  unfold toggleCompleted
  by_cases h : tid ∈ c
  · simp [h, List.mem_filter]
  · by_cases hx : x = tid
    · simp [h, hx]
    · simp [h, hx]

/-! ## Claims -/

/-- C1: `getNextReadyTask` returns the first task in document order that is
simultaneously incomplete and unblocked (every prereq completed, trivially so
for empty prereqs), scanning past both completed and blocked tasks, and it
returns none exactly when no task of the list is both incomplete and
unblocked. -/
theorem C1_next_ready_is_first_ready (flat : List FlatTask)
    (completedIds : List String) :
    getNextReadyTask flat completedIds = flat.find? (specReadyB completedIds) ∧
    (getNextReadyTask flat completedIds = none ↔
      flat.all (fun t => !specReadyB completedIds t) = true) := by
  refine ⟨getNextReadyTask_eq_find? flat completedIds, ?_⟩
  rw [getNextReadyTask_eq_find?, List.find?_eq_none, List.all_eq_true]
  simp

/-- C2: at `completed = 2`, `total = 4` the `pct` computation of
`components/ProgressMeter.tsx` yields 0, while the specified percentage
`round(100 * 2 / 4)` is 50 (as the `progressPercentage` of
`app/plan/page.tsx` correctly computes): the meter's ternary has its branches
inverted, contradicting its own `avoid NaN if total is 0` comment. -/
theorem C2_progress_meter_pct_diverges :
    pct 2 4 = 0 ∧ jsRound (100 * 2) 4 = 50 ∧ progressPercentage 2 4 = 50 := by
  decide

/-- C3: flattening preserves document order and count — the imperative loop
equals the spec-side weeks-then-milestones-then-tasks `flatMap` (so the k-th
flat task carries the week number and milestone name of its source position,
with absent prereqs defaulted to `[]` by `mkFlat`), and the total length is
the sum of the task counts of all milestones of all weeks; degenerate plans
flatten without error since the function is total. -/
theorem C3_flatten_order_and_count (p : Plan) :
    flattenPlan p = flattenSpec p ∧
    countTotalTasks (flattenPlan p) =
      (p.weeks.map
        (fun w => (w.milestones.map (fun m => m.tasks.length)).sum)).sum := by
  refine ⟨flattenPlan_eq_flattenSpec p, ?_⟩
  unfold countTotalTasks
  rw [flattenPlan_eq_flattenSpec]
  unfold flattenSpec
  simp [List.length_flatMap, List.map_map, Function.comp_def]

/-- C4: if the replan generation step fails (it throws, or its output cannot
be parsed — both surface as `Except.error`), the whole replan operation fails
atomically: the stored plan and its completion set are unchanged, and no
merge happens. -/
theorem C4_replan_failure_atomic (stored : StoredPlanState)
    (replacedIds : List String) (e : String) :
    storedAfterReplan stored replacedIds (Except.error e) = stored ∧
    replanOperation stored replacedIds (Except.error e) = Except.error e :=
  ⟨rfl, rfl⟩

/-- C5 counterexample: the claim "a task with a prereq naming a nonexistent
id is never returned, regardless of the CompletedSet" is false — with the
dangling prereq id `"X"` placed in the completed set, `staleTask` (the only
task, so `"X"` is no task id of the plan) is returned as ready. -/
theorem C5_dangling_prereq_counterexample :
    getNextReadyTask [staleTask] ["X"] = some staleTask ∧
    "X" ∉ List.map FlatTask.id [staleTask] := by
  constructor
  · decide
  · decide

/-- C5 (amended): a task one of whose prereqs is not in the completed set —
in particular a dangling prereq id that is also absent from the completed
set — is never returned by `getNextReadyTask`, and the computation is total
(never crashes). -/
theorem C5_unsatisfied_prereq_never_returned (flat : List FlatTask)
    (c : List String) (t : FlatTask) (p : String)
    (hp : p ∈ t.prereqs) (hpc : p ∉ c) :
    getNextReadyTask flat c ≠ some t := by
  intro h
  have h2 := (getNextReadyTask_some flat c t h).2
  unfold prereqsDone at h2
  rw [List.all_eq_true] at h2
  have h3 := h2 p hp
  simp at h3
  exact hpc h3

/-- C5 witness: the amended claim applied to a one-task plan with the
dangling prereq `"Y"` and an empty completed set. -/
theorem C5_unsatisfied_prereq_never_returned_witness :
    "Y" ∈ staleTask2.prereqs ∧ "Y" ∉ ([] : List String) ∧
    getNextReadyTask [staleTask2] [] ≠ some staleTask2 :=
  ⟨by decide, by decide,
    C5_unsatisfied_prereq_never_returned [staleTask2] [] staleTask2 "Y"
      (by decide) (by decide)⟩

/-- C6: the replacement batch size the replan engine specifies for `r`
remaining (replaced) tasks is exactly `max 5 (min 30 (r + 5))`: at least 5,
at most 30, and `r + 5` whenever that lies in range. -/
theorem C6_replan_batch_size (r : Nat) :
    replanTaskCount r = max 5 (min 30 (r + 5)) ∧
    5 ≤ replanTaskCount r ∧ replanTaskCount r ≤ 30 ∧
    replanTaskCount r = if r ≤ 25 then r + 5 else 30 := by
  unfold replanTaskCount
  refine ⟨rfl, ?_, ?_, ?_⟩
  · omega
  · omega
  · split_ifs <;> omega

/-- C7: `countCompleted` counts only flattened tasks whose id is in the
completed set, so it is invariant under restricting the set to the ids
occurring in the flattened list (extra stale ids change nothing), and it
never exceeds `countTotalTasks`. -/
theorem C7_stale_ids_not_counted (flat : List FlatTask) (c : List String) :
    countCompleted flat c =
      countCompleted flat
        (c.filter (fun x => decide (x ∈ flat.map FlatTask.id))) ∧
    countCompleted flat c ≤ countTotalTasks flat := by
  constructor
  · rw [countCompleted_eq_countP, countCompleted_eq_countP]
    apply List.countP_congr
    intro t ht
    simp only [decide_eq_true_eq, List.mem_filter]
    constructor
    · intro h
      exact ⟨h, by simp; exact ⟨t, ht, rfl⟩⟩
    · intro h
      exact h.1
  · rw [countCompleted_eq_countP]
    unfold countTotalTasks
    exact List.countP_le_length _

/-- C8: readiness is monotone in the completed set — for `A ⊆ B`, a task
whose prereqs are all completed under `A` keeps that property under `B` — and
the task returned by `getNextReadyTask` is never one whose id is in the
completed set it was queried with. -/
theorem C8_readiness_monotone (A B : List String) (u t : FlatTask)
    (flat : List FlatTask)
    (hsub : ∀ x ∈ A, x ∈ B) (hu : prereqsDone A u = true)
    (ht : getNextReadyTask flat A = some t) :
    prereqsDone B u = true ∧ t.id ∉ A := by
  constructor
  · unfold prereqsDone at hu ⊢
    rw [List.all_eq_true] at hu ⊢
    intro p hp
    have h := hu p hp
    simp at h ⊢
    exact hsub p h
  · exact (getNextReadyTask_some flat A t ht).1

/-- C8 witness: monotonicity at `A = ["a"] ⊆ B = ["a", "b"]` for `monoTask`
(prereqs `["a"]`), and the scan of `[firstTask]` under `A` returning
`firstTask`, whose id is not in `A`. -/
theorem C8_readiness_monotone_witness :
    prereqsDone ["a", "b"] monoTask = true ∧ firstTask.id ∉ ["a"] :=
  C8_readiness_monotone ["a"] ["a", "b"] monoTask firstTask [firstTask]
    (by decide) (by decide) (by decide)

/-- C9: a two-task mutual-prereq cycle with both tasks incomplete yields no
ready task — `getNextReadyTask` returns `none` (and, being a total Lean
function, it neither hangs nor throws on any input). -/
theorem C9_cycle_yields_none (a b : FlatTask) (c : List String)
    (hab : a.prereqs = [b.id]) (hba : b.prereqs = [a.id])
    (ha : a.id ∉ c) (hb : b.id ∉ c) :
    getNextReadyTask [a, b] c = none := by
  simp [getNextReadyTask, prereqsDone, hab, hba, ha, hb]

/-- C9 witness: the concrete two-task cycle `cycleTaskA ↔ cycleTaskB` with an
empty completed set yields `none`. -/
theorem C9_cycle_yields_none_witness :
    cycleTaskA.prereqs = [cycleTaskB.id] ∧
    cycleTaskB.prereqs = [cycleTaskA.id] ∧
    cycleTaskA.id ∉ ([] : List String) ∧
    cycleTaskB.id ∉ ([] : List String) ∧
    getNextReadyTask [cycleTaskA, cycleTaskB] [] = none :=
  ⟨rfl, rfl, by decide, by decide,
    C9_cycle_yields_none cycleTaskA cycleTaskB [] rfl rfl
      (by decide) (by decide)⟩

/-- C10: toggle-completion flips exactly the membership of the toggled id
(removing every occurrence when present, appending it once when absent),
leaves the membership of every other id unchanged, and applying it twice
yields a list equal as a set to the original. -/
theorem C10_toggle_flips_membership (c : List String) (tid x : String) :
    (decide (x ∈ toggleCompleted c tid) =
      if x = tid then !(decide (tid ∈ c)) else decide (x ∈ c)) ∧
    decide (x ∈ toggleCompleted (toggleCompleted c tid) tid) =
      decide (x ∈ c) ∧
    (toggleCompleted c tid).count tid = if tid ∈ c then 0 else 1 := by
  refine ⟨?_, ?_, ?_⟩
  · by_cases hx : x = tid
    · by_cases h : tid ∈ c <;> simp [mem_toggleCompleted, hx, h]
    · by_cases h : x ∈ c <;> simp [mem_toggleCompleted, hx, h]
  · by_cases hx : x = tid
    · by_cases h : tid ∈ c <;> simp [mem_toggleCompleted, hx, h]
    · by_cases h : x ∈ c <;> simp [mem_toggleCompleted, hx, h]
  · unfold toggleCompleted
    by_cases h : tid ∈ c
    · rw [if_pos h, if_pos h, List.count_eq_zero]
      simp [List.mem_filter]
    · rw [if_neg h, if_neg h, List.count_append,
        List.count_eq_zero.mpr h, List.count_singleton]
      simp

end Planner
